import Mathlib

/-!
Shallow embedding of the command-line argument parser in `src/argv/index.mjs`
(classes `DeveloperError`/`UserError`, predicates `isOpt`/`isLongOpt`/
`isShortOpt`/`isValidOptName`, `renderOptionName`, `validateManifest` and
`parse`), together with theorems settling the specification claims.

JavaScript runtime values that can flow through the parser are modelled by
`JSVal` (booleans, strings and numbers); numbers are modelled by `JSNum`,
with rationals standing in for finite doubles (the claims only exercise
values far below the range where double rounding could differ), plus the
distinguished `NaN` and signed infinities.  Fallible code returns
`Except JSErr`; `JSErr.dev` embeds `DeveloperError`, `JSErr.user` embeds
`UserError` (message and `code` field) and `JSErr.native` embeds a native
`TypeError` raised by the JavaScript runtime itself.
-/

/-- A JavaScript number: a finite value (exactly represented as a rational),
`NaN`, or a signed infinity. -/
inductive JSNum : Type
  | num (q : ℚ)
  | nan
  | inf (neg : Bool)
deriving DecidableEq, Repr

/-- A JavaScript primitive value of the kinds the parser manipulates. -/
inductive JSVal : Type
  | vbool (b : Bool)
  | vstr (s : String)
  | vnum (n : JSNum)
deriving DecidableEq, Repr

/-- `typeof` on a `JSVal`. -/
def jsTypeof : JSVal → String
  | .vbool _ => "boolean"
  | .vstr _ => "string"
  | .vnum _ => "number"

/-- `isNaN` on a `JSNum`. -/
def JSNum.isNaN : JSNum → Bool
  | .nan => true
  | _ => false

/-- SameValueZero equality on numbers, as used by `Array.prototype.includes`:
`NaN` equals `NaN`, finite values compare numerically. -/
def svzEqNum : JSNum → JSNum → Bool
  | .num a, .num b => a = b
  | .nan, .nan => true
  | .inf a, .inf b => a = b
  | _, _ => false

/-- SameValueZero equality on values (`Array.prototype.includes`). -/
def svzEq : JSVal → JSVal → Bool
  | .vbool a, .vbool b => a = b
  | .vstr a, .vstr b => a = b
  | .vnum a, .vnum b => svzEqNum a b
  | _, _ => false

/-! ### Characters and decimal numerals -/

/-- `[0-9]` (code points 48–57). -/
def isDigit (c : Char) : Bool := 48 ≤ c.toNat && c.toNat ≤ 57

/-- `[a-zA-Z]`, the character class of short-option flags and of the first
character of a long-option name (code points 97–122 and 65–90). -/
def isAlpha (c : Char) : Bool :=
  (97 ≤ c.toNat && c.toNat ≤ 122) || (65 ≤ c.toNat && c.toNat ≤ 90)

/-- A character allowed after the first one in a long-option name. -/
def isNameChar (c : Char) : Bool := isAlpha c || isDigit c || c = '-'

/-- The character for a single decimal digit (code point 48 + d). -/
def digitChar (d : Nat) : Char := Char.ofNat (48 + d)

/-- Decimal digits of `n`, most significant first, computed with enough fuel.
(`fuel` bounds the recursion depth; every use supplies at least the number of
digits of `n`.) -/
def natDigitsCore : Nat → Nat → List Char
  | 0, _ => []
  | fuel + 1, n =>
    if n < 10 then [digitChar n]
    else natDigitsCore fuel (n / 10) ++ [digitChar (n % 10)]

/-- JavaScript's canonical decimal string for a non-negative integer, as
produced by `ToString` on an array index in `parsed[i] = positional[i]`. -/
def natToStr (n : Nat) : String := String.mk (natDigitsCore (n + 1) n)

/-- Numeric value of a list of decimal digit characters. -/
def digitsVal (cs : List Char) : Nat :=
  cs.foldl (fun a c => 10 * a + (c.toNat - 48)) 0

/-! ### `parseInt` and `parseFloat`

Faithful models of the JavaScript global parsers as the parser uses them
(radix argument omitted): skip leading whitespace, read an optional sign,
then read the longest valid numeric prefix; `NaN` when that prefix is empty.
`parseInt` additionally honours a `0x`/`0X` hexadecimal prefix; `parseFloat`
additionally accepts `Infinity` and an exponent part. -/

/-- JavaScript whitespace (the code points relevant to command-line tokens). -/
def isWS (c : Char) : Bool :=
  c = ' ' || c = '\t' || c = '\n' || c = '\r' || c = '\x0b' || c = '\x0c'

/-- Hexadecimal digit value, if any (0-9, a-f, A-F by code point). -/
def hexDigitVal (c : Char) : Option Nat :=
  let n := c.toNat
  if 48 ≤ n && n ≤ 57 then some (n - 48)
  else if 97 ≤ n && n ≤ 102 then some (n - 87)
  else if 65 ≤ n && n ≤ 70 then some (n - 55)
  else none

/-- Value of a list of hexadecimal digit characters. -/
def hexVal (cs : List Char) : Nat :=
  cs.foldl (fun a c => 16 * a + ((hexDigitVal c).getD 0)) 0

/-- Split an optional leading `+`/`-` sign; `true` means negative. -/
def splitSign : List Char → Bool × List Char
  | '-' :: r => (true, r)
  | '+' :: r => (false, r)
  | cs => (false, cs)

/-- `parseInt(s)` (no radix argument): `none` models `NaN`. -/
def parseIntStr (s : String) : Option Int :=
  let cs := s.data.dropWhile isWS
  let (neg, cs) := splitSign cs
  let sgn : Int := if neg then -1 else 1
  match cs with
  | '0' :: x :: r =>
    if x = 'x' || x = 'X' then
      let hs := r.takeWhile (fun c => (hexDigitVal c).isSome)
      if hs.isEmpty then none else some (sgn * hexVal hs)
    else
      -- decimal, and the leading '0' is itself a digit
      some (sgn * digitsVal (('0' :: x :: r).takeWhile isDigit))
  | _ =>
    let ds := cs.takeWhile isDigit
    if ds.isEmpty then none else some (sgn * digitsVal ds)

/-- `parseFloat(s)`: longest prefix of the form
`sign? (digits ('.' digits?)? | '.' digits) exponent?` or `sign? Infinity`;
`NaN` when no such prefix exists. -/
def parseFloatStr (s : String) : JSNum :=
  let cs := s.data.dropWhile isWS
  let (neg, cs) := splitSign cs
  if ("Infinity".data).isPrefixOf cs then .inf neg
  else
    let ip := cs.takeWhile isDigit
    let cs1 := cs.dropWhile isDigit
    let (fp, cs2) :=
      match cs1 with
      | '.' :: r => (r.takeWhile isDigit, r.dropWhile isDigit)
      | _ => ([], cs1)
    if ip.isEmpty && fp.isEmpty then .nan
    else
      let mantissa : ℚ :=
        (digitsVal ip : ℚ) + (digitsVal fp : ℚ) / ((10 : ℚ) ^ fp.length)
      let exp : Int :=
        match cs2 with
        | e :: r =>
          if e = 'e' || e = 'E' then
            let (eneg, r2) := splitSign r
            let eds := r2.takeWhile isDigit
            if eds.isEmpty then 0
            else if eneg then -(digitsVal eds : Int) else (digitsVal eds : Int)
          else 0
        | [] => 0
      .num ((if neg then (-1 : ℚ) else 1) * mantissa * (10 : ℚ) ^ exp)

/-! ### Number-to-string

`String(n)` / template-literal coercion for numbers.  Integral values render
exactly as JavaScript does; for non-integral values JavaScript prints the
shortest round-tripping decimal of the double, which this rational model
renders as the exact decimal expansion when the denominator divides a power
of ten (every claim only ever renders integral values). -/

/-- Multiplicity of prime factor `p` (`p ≥ 2`) in `n`, with fuel. -/
def multCore (p : Nat) : Nat → Nat → Nat
  | 0, _ => 0
  | fuel + 1, n => if n % p = 0 && n ≠ 0 then multCore p fuel (n / p) + 1 else 0

/-- Decimal rendering of a non-negative rational whose denominator divides a
power of ten; falls back to fraction notation otherwise (unreachable from
double-valued inputs). -/
def posRatToStr (q : ℚ) : String :=
  if q.den = 1 then natToStr q.num.natAbs
  else
    let k := max (multCore 2 q.den q.den) (multCore 5 q.den q.den)
    if (2 : Nat) ^ multCore 2 q.den q.den * 5 ^ multCore 5 q.den q.den = q.den then
      let scaled := (q * (10 : ℚ) ^ k).num.natAbs
      let s := natToStr scaled
      let digits := s.data
      let pad := (List.replicate (k + 1 - digits.length) '0') ++ digits
      String.mk (pad.take (pad.length - k) ++ '.' :: pad.drop (pad.length - k))
    else natToStr q.num.natAbs ++ "/" ++ natToStr q.den

/-- `String(n)` for a `JSNum`. -/
def jsNumToString : JSNum → String
  | .nan => "NaN"
  | .inf neg => if neg then "-Infinity" else "Infinity"
  | .num q => if q < 0 then "-" ++ posRatToStr (-q) else posRatToStr q

/-- String coercion of a `JSVal`, as performed by `'' + value` in the error
messages and by `parseInt`/`parseFloat` on non-string arguments. -/
def jsToString : JSVal → String
  | .vbool b => if b then "true" else "false"
  | .vstr s => s
  | .vnum n => jsNumToString n

/-- `parseInt(value)` on an arbitrary value: coerce to string, then parse. -/
def jsParseInt (v : JSVal) : JSNum :=
  match parseIntStr (jsToString v) with
  | some i => .num (i : ℚ)
  | none => .nan

/-- `parseFloat(value)` on an arbitrary value. -/
def jsParseFloat (v : JSVal) : JSNum := parseFloatStr (jsToString v)

/-! ### Token classifiers and the name validator (`src/argv/index.mjs` 27–63) -/

/-- `isOpt(arg)`: `arg.startsWith('-')`. -/
def isOpt (arg : String) : Bool :=
  match arg.data with
  | '-' :: _ => true
  | _ => false

/-- `isLongOpt(arg)`: `arg.startsWith('--')`. -/
def isLongOpt (arg : String) : Bool :=
  match arg.data with
  | '-' :: '-' :: _ => true
  | _ => false

/-- `isShortOpt(arg)`: an option that is not a long option. -/
def isShortOpt (arg : String) : Bool := isOpt arg && !isLongOpt arg

/-- `isValidOptName(name)`: the regular expression
`^[a-zA-Z][a-zA-Z0-9-]*$`. -/
def isValidOptName (name : String) : Bool :=
  match name.data with
  | [] => false
  | c :: rest => isAlpha c && rest.all isNameChar

/-- `arg.indexOf(c)` over the characters of a string. -/
def indexOfChar (c : Char) : List Char → Option Nat
  | [] => none
  | x :: xs => if x = c then some 0 else (indexOfChar c xs).map (· + 1)

/-! ### The manifest and errors -/

/-- One manifest entry (`{ type, default?, required?, allow? }`).  `type` is
`none` when the `type` property is absent (`typeof undefined !== 'string'`);
`required` models the truthiness check `opt.required`.  Entries in this model
are always objects, so the `typeof opt !== 'object'` guard of
`validateManifest` is satisfied by construction. -/
structure OptEntry : Type where
  type : Option String := none
  dflt : Option JSVal := none
  allow : Option (List JSVal) := none
  required : Bool := false
deriving DecidableEq, Repr

/-- The value passed as the `manifest` argument: a plain object (an ordered
association list of entries, JavaScript objects preserving insertion order
for non-index string keys), `null`, or a non-object primitive. -/
inductive ManifestV : Type
  | mobj (entries : List (String × OptEntry))
  | mnull
  | mprim (v : JSVal)
deriving DecidableEq, Repr

/-- The value passed as the `args` argument when it is provided: an array of
strings, or some non-array value. -/
inductive ArgsV : Type
  | arr (toks : List String)
  | nonArray (v : JSVal)
deriving DecidableEq, Repr

/-- An exception: `DeveloperError(message)`, `UserError(message, code)`, or a
native `TypeError` raised by the runtime. -/
inductive JSErr : Type
  | dev (msg : String)
  | user (msg : String) (code : String)
  | native (msg : String)
deriving DecidableEq, Repr

/-- The `code` carried by a thrown `UserError`, if the outcome is one. -/
def errCodeOf {α : Type} : Except JSErr α → Option String
  | .error (.user _ code) => some code
  | _ => none

/-- The outcome is a thrown `DeveloperError`. -/
def isDevErr {α : Type} : Except JSErr α → Bool
  | .error (.dev _) => true
  | _ => false

/-- Property access `obj[k]` on an insertion-ordered association list. -/
def assocLookup {β : Type} : List (String × β) → String → Option β
  | [], _ => none
  | (k', v) :: rest, k => if k' = k then some v else assocLookup rest k

/-- `manifest?.[name]?.type` — optional chaining: `undefined` (`none`) when
the manifest is absent, `null`, a primitive (primitives have no own `.type`
on their string-keyed properties of interest here), or lacks the key. -/
def manifestTypeOf (manifest : Option ManifestV) (name : String) : Option String :=
  match manifest with
  | some (.mobj entries) =>
    match assocLookup entries name with
    | some opt => opt.type
    | none => none
  | _ => none

/-- `renderOptionName(name, opt)` (`src/argv/index.mjs` 71–73), faithfully to
JavaScript operator precedence: in
`name + (opt.type === 'boolean' ? '' : '=<' + opt.allow?.join('|') ?? opt.type + '>')`
the `+` binds tighter than `??`, so the expression parses as
`('=<' + opt.allow?.join('|')) ?? (opt.type + '>')`; the left operand is
always a string (never nullish — `'=<' + undefined` is `'=<undefined'`), so
the `??` fallback and the closing `'>'` are dead code. -/
def renderOptionName (name : String) (opt : OptEntry) : String :=
  name ++
    (if opt.type = some "boolean" then ""
     else "=<" ++
       (match opt.allow with
        | some l => String.intercalate "|" (l.map jsToString)
        | none => "undefined"))

/-! ### The consumption engine (`src/argv/index.mjs` 137–182)

The body of the `while` loop, as a recursion over the token queue.  Each
JavaScript assignment `parsed[k] = v` is recorded as an event `(k, v)` in
order; the Raw Result Map is the left fold of these assignments (`buildMap`).
The loop also accumulates the positional list. -/

/-- The inner `for` loop over a short-option group `-xyz…` (lines 167–177):
`flags` are the characters after the `-`, `group` the whole token (used in
the error message) and `next` the lookahead token `args[0]`, if any.
Returns the assignment events and whether the lookahead was consumed by
`args.shift()`. -/
def parseShortGroup (manifest : Option ManifestV) (group : String)
    (next : Option String) : List Char → Except JSErr (List (String × JSVal) × Bool)
  | [] => .ok ([], false)
  | c :: cs =>
    if !isAlpha c then
      .error (.user ("Invalid character \x7b" ++ String.mk [c] ++
        "\x7d in flag group \x7b" ++ group ++ "\x7d") "E_INVALID_OPT_NAME")
    else
      match cs with
      | [] =>
        -- last character of the group: lookahead-for-value rule
        match next with
        | some nx =>
          if !isOpt nx && manifestTypeOf manifest (String.mk [c]) ≠ some "boolean" then
            .ok ([(String.mk [c], .vstr nx)], true)
          else
            .ok ([(String.mk [c], .vbool true)], false)
        | none => .ok ([(String.mk [c], .vbool true)], false)
      | _ :: _ =>
        match parseShortGroup manifest group next cs with
        | .error e => .error e
        | .ok (es, consumed) => .ok ((String.mk [c], .vbool true) :: es, consumed)

/-- The `while (args.length > 0)` loop: returns the assignment events (in
order) and the positional list. -/
def parseLoop (manifest : Option ManifestV) : List String →
    Except JSErr (List (String × JSVal) × List String)
  | [] => .ok ([], [])
  | arg :: rest =>
    if isLongOpt arg then
      match indexOfChar '=' arg.data with
      | none =>
        let cleanArgName := String.mk (arg.data.drop 2)
        if !isValidOptName cleanArgName then
          .error (.user ("Invalid long option name \x7b" ++ arg ++ "\x7d")
            "E_INVALID_OPT_NAME")
        else
          match rest with
          | next :: rest2 =>
            if !isOpt next && manifestTypeOf manifest cleanArgName ≠ some "boolean" then
              -- consume the next token as this option's value
              match parseLoop manifest rest2 with
              | .error e => .error e
              | .ok (es, ps) => .ok ((cleanArgName, .vstr next) :: es, ps)
            else
              match parseLoop manifest (next :: rest2) with
              | .error e => .error e
              | .ok (es, ps) => .ok ((cleanArgName, .vbool true) :: es, ps)
          | [] =>
            match parseLoop manifest [] with
            | .error e => .error e
            | .ok (es, ps) => .ok ((cleanArgName, .vbool true) :: es, ps)
      | some equalsIndex =>
        let cleanArgName := String.mk ((arg.data.take equalsIndex).drop 2)
        if !isValidOptName cleanArgName then
          .error (.user ("Invalid long option name \x7b" ++ arg ++ "\x7d")
            "E_INVALID_OPT_NAME")
        else
          match parseLoop manifest rest with
          | .error e => .error e
          | .ok (es, ps) =>
            .ok ((cleanArgName, .vstr (String.mk (arg.data.drop (equalsIndex + 1)))) :: es, ps)
    else if isShortOpt arg then
      match rest with
      | next :: rest2 =>
        match parseShortGroup manifest arg (some next) (arg.data.drop 1) with
        | .error e => .error e
        | .ok (es1, true) =>
          -- the last flag consumed the lookahead via args.shift()
          match parseLoop manifest rest2 with
          | .error e => .error e
          | .ok (es, ps) => .ok (es1 ++ es, ps)
        | .ok (es1, false) =>
          match parseLoop manifest (next :: rest2) with
          | .error e => .error e
          | .ok (es, ps) => .ok (es1 ++ es, ps)
      | [] =>
        match parseShortGroup manifest arg none (arg.data.drop 1) with
        | .error e => .error e
        | .ok (es1, _) =>
          match parseLoop manifest [] with
          | .error e => .error e
          | .ok (es, ps) => .ok (es1 ++ es, ps)
    else
      -- positional argument
      match parseLoop manifest rest with
      | .error e => .error e
      | .ok (es, ps) => .ok (es, arg :: ps)
termination_by l => l.length
decreasing_by all_goals simp_arith

/-! ### The Raw Result Map -/

/-- `parsed[k] = v` on a JavaScript object modelled as an insertion-ordered
association list: overwrite in place when the key exists, append otherwise. -/
def upsert : List (String × JSVal) → String → JSVal → List (String × JSVal)
  | [], k, v => [(k, v)]
  | (k', v') :: rest, k, v =>
    if k' = k then (k', v) :: rest else (k', v') :: upsert rest k v

/-- `parsed[k]` (`undefined` becomes `none`). -/
def lookupVal (m : List (String × JSVal)) (k : String) : Option JSVal :=
  assocLookup m k

/-- The Raw Result Map obtained by replaying the assignment events of the
consumption loop in order. -/
def buildMap (events : List (String × JSVal)) : List (String × JSVal) :=
  events.foldl (fun m kv => upsert m kv.1 kv.2) []

/-! ### The unknown-option check (`src/argv/index.mjs` 184–189) -/

/-- `name` is a canonical array-index numeral below `len` (such strings are
own properties of a boxed string primitive). -/
def isCanonicalIndexBelow (name : String) (len : Nat) : Bool :=
  name = natToStr (digitsVal name.data) && digitsVal name.data < len &&
    name.data.all isDigit

/-- `manifest.hasOwnProperty(name)`.  On a plain object this is key
membership; on `null` the member access itself raises a native `TypeError`;
a boxed number or boolean has no own properties, and a boxed string owns
`length` and its index keys. -/
def hasOwnPropertyM (mv : ManifestV) (name : String) : Except JSErr Bool :=
  match mv with
  | .mobj entries => .ok (entries.any (fun kv => kv.1 = name))
  | .mnull => .error (.native "Cannot read properties of null (reading 'hasOwnProperty')")
  | .mprim (.vstr s) => .ok (name = "length" || isCanonicalIndexBelow name s.length)
  | .mprim _ => .ok false

/-- The `for (const name of Object.keys(parsed))` loop checking each key of
the Raw Result Map against the manifest. -/
def checkUnknown (mv : ManifestV) : List (String × JSVal) → Except JSErr Unit
  | [] => .ok ()
  | (name, _) :: rest =>
    match hasOwnPropertyM mv name with
    | .error e => .error e
    | .ok true => checkUnknown mv rest
    | .ok false =>
      .error (.user ("Unknown option \x7b" ++ name ++ "\x7d provided") "E_UNKNOWN_OPT")

/-! ### Positional insertion (`src/argv/index.mjs` 191–201) -/

/-- Copy each positional value into the map under its zero-based index key
(`parsed[i] = positional[i]`, with `i` converted by `ToString`). -/
def insertIndexKeys (parsed : List (String × JSVal)) (positional : List String)
    (start : Nat) : List (String × JSVal) :=
  match positional with
  | [] => parsed
  | p :: ps => insertIndexKeys (upsert parsed (natToStr start) (.vstr p)) ps (start + 1)

/-! ### Manifest validation (`src/argv/index.mjs` 79–120) -/

/-- Lines 88–94: the entry must declare one of the four types.  Returns the
declared type on success. -/
def validateEntryType (name : String) (opt : OptEntry) : Except JSErr String :=
  match opt.type with
  | none =>
    .error (.dev ("Invalid manifest entry \x7b" ++ name ++
      "\x7d: Manifest entries must have a defined type."))
  | some ty =>
    if !(ty = "boolean" || ty = "string" || ty = "int" || ty = "float") then
      .error (.dev ("Invalid manifest entry \x7b" ++ name ++ "\x7d: Invalid type \x7b" ++
        ty ++ "\x7d, must be one of \"boolean\", \"string\", \"int\" or \"float\"."))
    else .ok ty

/-- Lines 96–98: a declared default must have the declared type (note that
`typeof` yields `'number'`, never `'int'`/`'float'`, for numbers). -/
def validateEntryDefault (name : String) (opt : OptEntry) (ty : String) :
    Except JSErr Unit :=
  match opt.dflt with
  | some d =>
    if jsTypeof d ≠ ty then
      .error (.dev ("Invalid manifest entry \x7b" ++ name ++
        "\x7d: Default value \x7b" ++ jsToString d ++
        "\x7d is not of type \x7b" ++ ty ++ "\x7d."))
    else .ok ()
  | none => .ok ()

/-- Lines 100–118: allow-list shape, type homogeneity and default
membership. -/
def validateEntryAllow (name : String) (opt : OptEntry) (ty : String) :
    Except JSErr Unit :=
  match opt.allow with
  | none => .ok ()
  | some l =>
    if l.isEmpty then
      .error (.dev ("Invalid manifest entry \x7b" ++ name ++
        "\x7d: Allow list must be an array containing at least one item."))
    else if ty = "boolean" then
      .error (.dev ("Invalid manifest entry \x7b" ++ name ++
        "\x7d: Allow list cannot be used with boolean options."))
    else
      let expectedType := if ty = "string" then "string" else "number"
      match l.find? (fun v => jsTypeof v ≠ expectedType) with
      | some bad =>
        .error (.dev ("Invalid manifest entry \x7b" ++ name ++
          "\x7d: Allow list contains invalid value \x7b" ++ jsToString bad ++
          "\x7d, must be of type \x7b" ++ expectedType ++ "\x7d."))
      | none =>
        match opt.dflt with
        | some d =>
          if !(l.any (fun v => svzEq v d)) then
            .error (.dev ("Invalid manifest entry \x7b" ++ name ++
              "\x7d: Default value \x7b" ++ jsToString d ++
              "\x7d is not in the allow list."))
          else .ok ()
        | none => .ok ()

/-- The checks on a single manifest entry, in source order.  `opt.allow`,
when present in this model, is an array, so `!Array.isArray(opt.allow)`
cannot fire; entries are objects by construction, so
`typeof opt !== 'object'` cannot fire. -/
def validateEntry (name : String) (opt : OptEntry) : Except JSErr Unit :=
  match validateEntryType name opt with
  | .error e => .error e
  | .ok ty =>
    match validateEntryDefault name opt ty with
    | .error e => .error e
    | .ok () => validateEntryAllow name opt ty

/-- `validateManifest(manifest)`: the non-null/non-object guard, then
`Object.entries(manifest)` (which raises a native `TypeError` on `null`) and
the per-entry checks in order. -/
def validateManifestM (mv : ManifestV) : Except JSErr Unit :=
  match mv with
  | .mprim _ =>
    -- typeof is 'boolean', 'string' or 'number' here, never 'object'
    .error (.dev "argv.parse() expects to be provided an object as its second argument")
  | .mnull =>
    -- `manifest !== null` fails, so the guard passes; `Object.entries(null)` throws
    .error (.native "Cannot convert undefined or null to object")
  | .mobj entries => validateEntries entries
where
  validateEntries : List (String × OptEntry) → Except JSErr Unit
    | [] => .ok ()
    | (name, opt) :: rest =>
      match validateEntry name opt with
      | .error e => .error e
      | .ok () => validateEntries rest

/-! ### Value coercion and constraints (`src/argv/index.mjs` 206–236) -/

/-- The error raised at lines 214, 222 and 227. -/
def invalidValueErr (shown : String) (name : String) (opt : OptEntry) : JSErr :=
  .user ("Invalid value \x7b" ++ shown ++ "\x7d for argument \x7b" ++
    renderOptionName name opt ++ "\x7d") "E_INVALID_OPT_VALUE"

/-- Lines 210–224: type checking/casting of a captured raw value. -/
def coerceChecked (name : String) (opt : OptEntry) (rawValue : JSVal) :
    Except JSErr JSVal :=
  if opt.type = some "boolean" || opt.type = some "string" then
    if some (jsTypeof rawValue) ≠ opt.type then
      .error (invalidValueErr (jsToString rawValue) name opt)
    else .ok rawValue
  else
    let value : JSVal :=
      if opt.type = some "int" then .vnum (jsParseInt rawValue)
      else if opt.type = some "float" then .vnum (jsParseFloat rawValue)
      else rawValue
    -- `typeof value !== 'number' || isNaN(value)`
    match value with
    | .vnum .nan => .error (invalidValueErr (jsToString rawValue) name opt)
    | .vnum n => .ok (.vnum n)
    | _ => .error (invalidValueErr (jsToString rawValue) name opt)

/-- Lines 210–229 for one entry whose key holds a raw value: type
checking/casting, then the allow-list check (lines 226–227); returns the
coerced value. -/
def coerceValue (name : String) (opt : OptEntry) (rawValue : JSVal) :
    Except JSErr JSVal :=
  match coerceChecked name opt rawValue with
  | .error e => .error e
  | .ok value =>
    match opt.allow with
    | some l =>
      if !(l.any (fun v => svzEq v value)) then
        .error (invalidValueErr (jsToString value) name opt)
      else .ok value
    | none => .ok value

/-- The `for (const [name, opt] of Object.entries(manifest))` loop: coerce
captured values, apply defaults, enforce `required`. -/
def applyEntries (parsed : List (String × JSVal)) :
    List (String × OptEntry) → Except JSErr (List (String × JSVal))
  | [] => .ok parsed
  | (name, opt) :: rest =>
    match lookupVal parsed name with
    | some rawValue =>
      match coerceValue name opt rawValue with
      | .error e => .error e
      | .ok value => applyEntries (upsert parsed name value) rest
    | none =>
      match opt.dflt with
      | some d => applyEntries (upsert parsed name d) rest
      | none =>
        if opt.required then
          .error (.user ("Required option \x7b" ++ renderOptionName name opt ++
            "\x7d not provided") "E_MISSING_OPT")
        else applyEntries parsed rest

/-! ### `parse` (`src/argv/index.mjs` 128–240) -/

/-- The returned object: its enumerable own properties in insertion order,
and the non-enumerable reserved `_` property holding the positional list
when at least one positional argument exists. -/
structure ResultObj : Type where
  props : List (String × JSVal)
  underscore : Option (List String)
deriving DecidableEq, Repr

/-- `parse(manifest, args)` with `args` provided.  (When `args` is omitted
the source reads the ambient `process.argv`, an effect outside this model;
every claim supplies `args`.) -/
def parse (manifest : Option ManifestV) (margs : ArgsV) : Except JSErr ResultObj :=
  match margs with
  | .nonArray _ => .error (.dev "argv.parse() expects \x7bargs\x7d to be an argument array")
  | .arr args =>
    match parseLoop manifest args with
    | .error e => .error e
    | .ok (events, positional) =>
      let parsed := buildMap events
      let unknownCheck : Except JSErr Unit :=
        match manifest with
        | some mv => checkUnknown mv parsed
        | none => .ok ()
      match unknownCheck with
      | .error e => .error e
      | .ok () =>
        let underscore := if positional.isEmpty then none else some positional
        let parsed := insertIndexKeys parsed positional 0
        match manifest with
        | none => .ok ⟨parsed, underscore⟩
        | some mv =>
          match validateManifestM mv with
          | .error e => .error e
          | .ok () =>
            match mv with
            | .mobj entries =>
              match applyEntries parsed entries with
              | .error e => .error e
              | .ok parsed2 => .ok ⟨parsed2, underscore⟩
            | _ =>
              -- unreachable: validateManifestM rejects null and primitives
              .ok ⟨parsed, underscore⟩

/-! ### Basic lemmas about the embedding -/

theorem String.mk_data (s : String) : String.mk s.data = s := rfl

theorem data_append (s t : String) : (s ++ t).data = s.data ++ t.data := rfl

theorem lookupVal_upsert_self (m : List (String × JSVal)) (k : String) (v : JSVal) :
    lookupVal (upsert m k v) k = some v := by
  induction m with
  | nil => simp [upsert, lookupVal, assocLookup]
  | cons kv rest ih =>
    obtain ⟨k', v'⟩ := kv
    by_cases h : k' = k
    · subst h
      simp [upsert, lookupVal, assocLookup]
    · simp only [upsert, if_neg h, lookupVal, assocLookup]
      exact ih

theorem lookupVal_upsert_ne (m : List (String × JSVal)) (k k' : String) (v : JSVal)
    (h : k' ≠ k) : lookupVal (upsert m k v) k' = lookupVal m k' := by
  induction m with
  | nil =>
    simp [upsert, lookupVal, assocLookup, if_neg (Ne.symm h)]
  | cons kv rest ih =>
    obtain ⟨k0, v0⟩ := kv
    by_cases h0 : k0 = k
    · subst h0
      simp [upsert, lookupVal, assocLookup, if_neg (Ne.symm h)]
    · simp only [upsert, if_neg h0, lookupVal, assocLookup]
      by_cases h1 : k0 = k'
      · rw [if_pos h1, if_pos h1]
      · rw [if_neg h1, if_neg h1]
        exact ih

/-- The value assigned by the last event for key `k`, if any. -/
def lastEventVal (k : String) : List (String × JSVal) → Option JSVal
  | [] => none
  | e :: rest =>
    match lastEventVal k rest with
    | some v => some v
    | none => if e.1 = k then some e.2 else none

/-- Replaying assignment events over any initial map: the final binding of a
key is the last event for that key, or the initial binding when no event
mentions it. -/
theorem foldl_upsert_lookup (evs : List (String × JSVal)) (m : List (String × JSVal))
    (k : String) :
    lookupVal (evs.foldl (fun m kv => upsert m kv.1 kv.2) m) k =
      (match lastEventVal k evs with
       | some v => some v
       | none => lookupVal m k) := by
  induction evs generalizing m with
  | nil => simp [lastEventVal]
  | cons e evs ih =>
    obtain ⟨k0, v0⟩ := e
    simp only [List.foldl_cons, ih, lastEventVal]
    cases hl : lastEventVal k evs with
    | some v => simp
    | none =>
      by_cases h : k0 = k
      · subst h
        simp [lookupVal_upsert_self]
      · simp [h, lookupVal_upsert_ne _ _ _ _ (Ne.symm h)]

/-- `lastEventVal` is the value of the last occurrence of `k` among the
events: the first match when searching the reversed event list. -/
theorem lastEventVal_eq_find?_reverse (k : String) (evs : List (String × JSVal)) :
    lastEventVal k evs = (evs.reverse.find? (fun e => e.1 = k)).map Prod.snd := by
  induction evs with
  | nil => simp [lastEventVal]
  | cons e evs ih =>
    simp only [lastEventVal, List.reverse_cons, List.find?_append, ih]
    cases hf : evs.reverse.find? (fun e => decide (e.1 = k)) with
    | some a => simp [Option.or]
    | none =>
      by_cases h : e.1 = k
      · simp [Option.or, List.find?, h]
      · simp [Option.or, List.find?, h]

/-! ### Decimal numeral lemmas -/

theorem digitsVal_append_singleton (l : List Char) (c : Char) :
    digitsVal (l ++ [c]) = 10 * digitsVal l + (c.toNat - 48) := by
  simp [digitsVal, List.foldl_append]

theorem digitChar_val (d : Nat) (h : d < 10) :
    (digitChar d).toNat - 48 = d := by
  revert h
  revert d
  decide

theorem digitsVal_natDigitsCore (fuel n : Nat) (h : n < 10 ^ fuel) :
    digitsVal (natDigitsCore fuel n) = n := by
  induction fuel generalizing n with
  | zero =>
    simp only [pow_zero, Nat.lt_one_iff] at h
    subst h
    simp [natDigitsCore, digitsVal]
  | succ fuel ih =>
    by_cases h10 : n < 10
    · rw [natDigitsCore, if_pos h10]
      simpa [digitsVal] using digitChar_val n h10
    · have hdiv : n / 10 < 10 ^ fuel := by
        rw [Nat.div_lt_iff_lt_mul (by norm_num : 0 < 10)]
        calc n < 10 ^ (fuel + 1) := h
        _ = 10 ^ fuel * 10 := by rw [pow_succ]
      rw [natDigitsCore, if_neg h10, digitsVal_append_singleton, ih _ hdiv,
        digitChar_val (n % 10) (Nat.mod_lt n (by norm_num))]
      omega

theorem natToStr_inj (a b : Nat) (h : natToStr a = natToStr b) : a = b := by
  have ha : a < 10 ^ (a + 1) := by
    calc a < 10 ^ a := Nat.lt_pow_self (by norm_num) a
    _ ≤ 10 ^ (a + 1) := Nat.pow_le_pow_right (by norm_num) (Nat.le_succ a)
  have hb : b < 10 ^ (b + 1) := by
    calc b < 10 ^ b := Nat.lt_pow_self (by norm_num) b
    _ ≤ 10 ^ (b + 1) := Nat.pow_le_pow_right (by norm_num) (Nat.le_succ b)
  have hd : natDigitsCore (a + 1) a = natDigitsCore (b + 1) b := by
    have := congrArg String.data h
    simpa [natToStr] using this
  calc a = digitsVal (natDigitsCore (a + 1) a) := (digitsVal_natDigitsCore _ _ ha).symm
  _ = digitsVal (natDigitsCore (b + 1) b) := by rw [hd]
  _ = b := digitsVal_natDigitsCore _ _ hb

theorem natDigitsCore_head (fuel n : Nat) (h : 0 < fuel) :
    ∃ d, d < 10 ∧ (natDigitsCore fuel n).head? = some (digitChar d) := by
  induction fuel generalizing n with
  | zero => omega
  | succ fuel ih =>
    by_cases h10 : n < 10
    · exact ⟨n, h10, by simp [natDigitsCore, h10]⟩
    · rcases Nat.eq_zero_or_pos fuel with hf | hf
      · subst hf
        exact ⟨n % 10, Nat.mod_lt n (by norm_num), by simp [natDigitsCore, h10]⟩
      · obtain ⟨d, hd, hh⟩ := ih (n / 10) hf
        refine ⟨d, hd, ?_⟩
        have hne : natDigitsCore fuel (n / 10) ≠ [] := by
          intro hnil
          rw [hnil] at hh
          simp at hh
        simp only [natDigitsCore, if_neg h10]
        rw [List.head?_append_of_ne_nil _ hne]
        exact hh

theorem natToStr_head (n : Nat) :
    ∃ d, d < 10 ∧ (natToStr n).data.head? = some (digitChar d) := by
  simpa [natToStr] using natDigitsCore_head (n + 1) n (Nat.succ_pos n)

theorem natToStr_ne_underscore (n : Nat) : natToStr n ≠ "_" := by
  intro h
  obtain ⟨d, hd, hh⟩ := natToStr_head n
  rw [h] at hh
  have hc : digitChar d = '_' := by
    have h2 : some '_' = some (digitChar d) := hh
    exact (Option.some_inj.mp h2).symm
  have hnot : ∀ e, e < 10 → digitChar e ≠ '_' := by decide
  exact hnot d hd hc

/-! ### Positional-insertion lemmas -/

theorem insertIndexKeys_lookup_untouched (ps : List String) (m : List (String × JSVal))
    (s : Nat) (k : String) (h : ∀ j, s ≤ j → k ≠ natToStr j) :
    lookupVal (insertIndexKeys m ps s) k = lookupVal m k := by
  induction ps generalizing m s with
  | nil => simp [insertIndexKeys]
  | cons p ps ih =>
    rw [insertIndexKeys, ih _ (s + 1) (fun j hj => h j (Nat.le_of_succ_le hj)),
      lookupVal_upsert_ne _ _ _ _ (h s le_rfl)]

theorem insertIndexKeys_lookup_at (ps : List String) (m : List (String × JSVal))
    (s i : Nat) (hi : i < ps.length) :
    lookupVal (insertIndexKeys m ps s) (natToStr (s + i)) =
      some (.vstr (ps.get ⟨i, hi⟩)) := by
  induction ps generalizing m s i with
  | nil => simp at hi
  | cons p ps ih =>
    cases i with
    | zero =>
      rw [Nat.add_zero, insertIndexKeys,
        insertIndexKeys_lookup_untouched _ _ _ _
          (fun j hj heq => Nat.ne_of_lt (Nat.lt_of_lt_of_le (Nat.lt_succ_self s) hj)
            (natToStr_inj _ _ heq)),
        lookupVal_upsert_self]
      rfl
    | succ i =>
      have hadd : s + (i + 1) = (s + 1) + i := by omega
      rw [insertIndexKeys, hadd, ih _ (s + 1) i (Nat.lt_of_succ_lt_succ hi)]
      rfl

/-! ### Character-class and option-name lemmas -/

theorem isAlpha_ne_eq {c : Char} (h : isAlpha c = true) : c ≠ '=' := by
  intro he
  subst he
  exact absurd h (by decide)

theorem isNameChar_ne_eq {c : Char} (h : isNameChar c = true) : c ≠ '=' := by
  intro he
  subst he
  exact absurd h (by decide)

theorem indexOfChar_eq_none_of_all {cs : List Char}
    (h : ∀ c ∈ cs, c ≠ '=') : indexOfChar '=' cs = none := by
  induction cs with
  | nil => rfl
  | cons c cs ih =>
    rw [indexOfChar, if_neg (h c (List.mem_cons_self c cs)),
      ih (fun c hc => h c (List.mem_cons_of_mem _ hc))]
    rfl

/-- A valid long-option name contains no `=`. -/
theorem validOptName_no_eq {name : String} (h : isValidOptName name = true) :
    indexOfChar '=' name.data = none := by
  unfold isValidOptName at h
  rcases hd : name.data with _ | ⟨c, rest⟩
  · rfl
  · rw [hd] at h
    simp only [Bool.and_eq_true] at h
    refine indexOfChar_eq_none_of_all (fun x hx => ?_)
    rcases List.mem_cons.mp hx with h1 | h2
    · subst h1
      exact isAlpha_ne_eq h.1
    · have := List.all_eq_true.mp h.2 x h2
      exact isNameChar_ne_eq this

/-- The first `=` in `--name=value` is right after the name. -/
theorem indexOfChar_append_at {l1 l2 : List Char}
    (h : ∀ c ∈ l1, c ≠ '=') : indexOfChar '=' (l1 ++ '=' :: l2) = some l1.length := by
  induction l1 with
  | nil => simp [indexOfChar]
  | cons c l1 ih =>
    rw [List.cons_append, indexOfChar, if_neg (h c (List.mem_cons_self c l1)),
      ih (fun x hx => h x (List.mem_cons_of_mem _ hx))]
    rfl

theorem validOptName_chars_ne_eq {name : String} (h : isValidOptName name = true) :
    ∀ c ∈ name.data, c ≠ '=' := by
  unfold isValidOptName at h
  rcases hd : name.data with _ | ⟨c, rest⟩
  · intro c hc
    simp at hc
  · rw [hd] at h
    simp only [Bool.and_eq_true] at h
    intro x hx
    rcases List.mem_cons.mp hx with h1 | h2
    · subst h1
      exact isAlpha_ne_eq h.1
    · exact isNameChar_ne_eq (List.all_eq_true.mp h.2 x h2)

/-! ### Error-code lemmas -/

/-- The `code` property of a thrown error: only `UserError` carries one. -/
def jsErrCode : JSErr → Option String
  | .user _ code => some code
  | _ => none

theorem checkUnknown_ok_iff (entries : List (String × OptEntry))
    (l : List (String × JSVal)) :
    checkUnknown (.mobj entries) l = .ok () ↔
      ∀ kv ∈ l, ∃ en ∈ entries, en.1 = kv.1 := by
  induction l with
  | nil => simp [checkUnknown]
  | cons kv rest ih =>
    obtain ⟨name, v⟩ := kv
    simp only [checkUnknown, hasOwnPropertyM]
    by_cases h : entries.any (fun kv => kv.1 = name) = true
    · have hex : ∃ en ∈ entries, en.1 = name := by
        simpa using List.any_eq_true.mp h
      simp only [h, ih]
      constructor
      · intro hall kv hkv
        rcases List.mem_cons.mp hkv with h1 | h2
        · subst h1
          exact hex
        · exact hall kv h2
      · intro hall kv hkv
        exact hall kv (List.mem_cons_of_mem _ hkv)
    · have hnex : ¬ ∃ en ∈ entries, en.1 = name := by
        intro hex
        exact h (List.any_eq_true.mpr (by simpa using hex))
      rw [Bool.not_eq_true] at h
      simp only [h]
      constructor
      · intro hfalse
        exact absurd hfalse (by simp)
      · intro hall
        exact absurd (hall (name, v) (List.mem_cons_self _ _)) hnex

theorem checkUnknown_err (entries : List (String × OptEntry))
    (l : List (String × JSVal))
    (h : ¬ ∀ kv ∈ l, ∃ en ∈ entries, en.1 = kv.1) :
    ∃ msg, checkUnknown (.mobj entries) l = .error (.user msg "E_UNKNOWN_OPT") := by
  induction l with
  | nil => exact absurd (by simp) h
  | cons kv rest ih =>
    obtain ⟨name, v⟩ := kv
    simp only [checkUnknown, hasOwnPropertyM]
    by_cases hmem : entries.any (fun kv => kv.1 = name) = true
    · simp only [hmem]
      refine ih (fun hall => h ?_)
      intro kv hkv
      rcases List.mem_cons.mp hkv with h1 | h2
      · subst h1
        simpa using List.any_eq_true.mp hmem
      · exact hall kv h2
    · rw [Bool.not_eq_true] at hmem
      simp only [hmem]
      exact ⟨_, rfl⟩

theorem validateEntryType_code (name : String) (opt : OptEntry) (e : JSErr)
    (h : validateEntryType name opt = .error e) : jsErrCode e = none := by
  unfold validateEntryType at h
  split at h
  · cases h
    rfl
  · split at h
    · cases h
      rfl
    · cases h

theorem validateEntryDefault_code (name : String) (opt : OptEntry) (ty : String)
    (e : JSErr) (h : validateEntryDefault name opt ty = .error e) :
    jsErrCode e = none := by
  unfold validateEntryDefault at h
  split at h
  · split at h
    · cases h
      rfl
    · cases h
  · cases h

theorem validateEntryAllow_code (name : String) (opt : OptEntry) (ty : String)
    (e : JSErr) (h : validateEntryAllow name opt ty = .error e) :
    jsErrCode e = none := by
  rcases ha : opt.allow with _ | l
  · simp only [validateEntryAllow, ha] at h
    cases h
  · simp only [validateEntryAllow, ha] at h
    split at h
    · cases h
      rfl
    · split at h
      · cases h
        rfl
      · split at h
        · cases h
          rfl
        · rcases hd : opt.dflt with _ | d
          · simp only [hd] at h
            cases h
          · simp only [hd] at h
            split at h
            · cases h
              rfl
            · cases h

theorem validateEntry_code (name : String) (opt : OptEntry) (e : JSErr)
    (h : validateEntry name opt = .error e) : jsErrCode e = none := by
  cases ht : validateEntryType name opt with
  | error e2 =>
    simp only [validateEntry, ht] at h
    cases h
    exact validateEntryType_code name opt _ ht
  | ok ty =>
    simp only [validateEntry, ht] at h
    cases hd : validateEntryDefault name opt ty with
    | error e2 =>
      simp only [hd] at h
      cases h
      exact validateEntryDefault_code name opt ty _ hd
    | ok u =>
      obtain ⟨⟩ := u
      simp only [hd] at h
      exact validateEntryAllow_code name opt ty _ h

theorem validateManifestM_code (mv : ManifestV) (e : JSErr)
    (h : validateManifestM mv = .error e) : jsErrCode e = none := by
  cases mv with
  | mprim v =>
    simp only [validateManifestM] at h
    cases h
    rfl
  | mnull =>
    simp only [validateManifestM] at h
    cases h
    rfl
  | mobj entries =>
    simp only [validateManifestM] at h
    induction entries with
    | nil => simp [validateManifestM.validateEntries] at h
    | cons en rest ih =>
      obtain ⟨name, opt⟩ := en
      simp only [validateManifestM.validateEntries] at h
      cases hv : validateEntry name opt with
      | error e2 =>
        rw [hv] at h
        cases h
        exact validateEntry_code name opt _ hv
      | ok u =>
        obtain ⟨⟩ := u
        rw [hv] at h
        exact ih h

theorem coerceChecked_code (name : String) (opt : OptEntry) (raw : JSVal) (e : JSErr)
    (h : coerceChecked name opt raw = .error e) :
    jsErrCode e = some "E_INVALID_OPT_VALUE" := by
  unfold coerceChecked at h
  split at h
  · split at h
    · cases h
      rfl
    · cases h
  · by_cases hi : opt.type = some "int"
    · rw [if_pos hi] at h
      cases hn : jsParseInt raw with
      | nan => simp only [hn] at h; cases h; rfl
      | num q => simp only [hn] at h; cases h
      | inf b => simp only [hn] at h; cases h
    · rw [if_neg hi] at h
      by_cases hf : opt.type = some "float"
      · rw [if_pos hf] at h
        cases hn : jsParseFloat raw with
        | nan => simp only [hn] at h; cases h; rfl
        | num q => simp only [hn] at h; cases h
        | inf b => simp only [hn] at h; cases h
      · rw [if_neg hf] at h
        cases raw with
        | vbool b => cases h; rfl
        | vstr s => cases h; rfl
        | vnum n =>
          cases n with
          | nan => cases h; rfl
          | num q => cases h
          | inf b => cases h

theorem coerceValue_code (name : String) (opt : OptEntry) (raw : JSVal) (e : JSErr)
    (h : coerceValue name opt raw = .error e) :
    jsErrCode e = some "E_INVALID_OPT_VALUE" := by
  cases hc : coerceChecked name opt raw with
  | error e2 =>
    simp only [coerceValue, hc] at h
    cases h
    exact coerceChecked_code name opt raw _ hc
  | ok value =>
    simp only [coerceValue, hc] at h
    rcases ha : opt.allow with _ | l
    · simp only [ha] at h
      cases h
    · simp only [ha] at h
      split at h
      · cases h
        rfl
      · cases h

theorem applyEntries_code (parsed : List (String × JSVal))
    (es : List (String × OptEntry)) (e : JSErr)
    (h : applyEntries parsed es = .error e) :
    jsErrCode e = some "E_INVALID_OPT_VALUE" ∨ jsErrCode e = some "E_MISSING_OPT" := by
  induction es generalizing parsed with
  | nil => simp [applyEntries] at h
  | cons en rest ih =>
    obtain ⟨name, opt⟩ := en
    cases hl : lookupVal parsed name with
    | some rawValue =>
      simp only [applyEntries, hl] at h
      cases hc : coerceValue name opt rawValue with
      | error e2 =>
        simp only [hc] at h
        cases h
        exact Or.inl (coerceValue_code name opt rawValue _ hc)
      | ok value =>
        simp only [hc] at h
        exact ih _ h
    | none =>
      simp only [applyEntries, hl] at h
      cases hd : opt.dflt with
      | some d =>
        simp only [hd] at h
        exact ih _ h
      | none =>
        simp only [hd] at h
        by_cases hr : opt.required = true
        · rw [if_pos hr] at h
          cases h
          exact Or.inr rfl
        · rw [Bool.not_eq_true] at hr
          rw [hr] at h
          simp only [Bool.false_eq_true, if_false] at h
          exact ih _ h

/-! ### `parse` unfolding lemmas -/

theorem parse_none_unfold (args : List String) (events : List (String × JSVal))
    (pos : List String) (hpl : parseLoop none args = .ok (events, pos)) :
    parse none (.arr args) =
      .ok ⟨insertIndexKeys (buildMap events) pos 0,
        if pos.isEmpty then none else some pos⟩ := by
  simp only [parse, hpl]

theorem parse_mobj_unfold (entries : List (String × OptEntry)) (args : List String)
    (events : List (String × JSVal)) (pos : List String)
    (hpl : parseLoop (some (.mobj entries)) args = .ok (events, pos)) :
    parse (some (.mobj entries)) (.arr args) =
      (match checkUnknown (.mobj entries) (buildMap events) with
       | .error e => .error e
       | .ok () =>
         match validateManifestM (.mobj entries) with
         | .error e => .error e
         | .ok () =>
           match applyEntries (insertIndexKeys (buildMap events) pos 0) entries with
           | .error e => .error e
           | .ok parsed2 =>
             .ok ⟨parsed2, if pos.isEmpty then none else some pos⟩) := by
  simp only [parse, hpl]

/-! ## The specification claims -/

/-- C3: the spec claims error messages render option names as `name` for
booleans, `name=<v1|v2|…>` with `allow`, and `name=<type>` otherwise.  The
boolean case holds, but operator precedence in the source
(`'=<' + opt.allow?.join('|') ?? opt.type + '>'` parses the `+`s before
`??`, making the fallback and the closing `>` dead code) makes the other two
render as `name=<v1|v2` and `name=<undefined`. -/
theorem claim3_render_option_name_eval :
    renderOptionName "foo" { type := some "boolean" } = "foo"
    ∧ renderOptionName "foo" { type := some "string" } = "foo=<undefined"
    ∧ renderOptionName "foo"
        { type := some "string", allow := some [.vstr "a", .vstr "b"] } = "foo=<a|b"
    ∧ renderOptionName "foo" { type := some "string" } ≠ "foo=<string>"
    ∧ renderOptionName "foo"
        { type := some "string", allow := some [.vstr "a", .vstr "b"] } ≠ "foo=<a|b>" := by
  refine ⟨rfl, rfl, rfl, ?_, ?_⟩ <;> decide

/-- C2 counterexample: the spec's examples omit the mandatory `type`
declaration, so both `parse({ foo: { required: true } }, [])` and
`parse({ foo: { default: 'bar' } }, [])` are rejected by `validateManifest`
with a `DeveloperError` — the former does not throw `UserError` with code
`E_MISSING_OPT`, and the latter does not return `{ foo: 'bar' }`. -/
theorem claim2_counterexample :
    parse (some (.mobj [("foo", { required := true })])) (.arr []) =
      .error (.dev "Invalid manifest entry \x7bfoo\x7d: Manifest entries must have a defined type.")
    ∧ parse (some (.mobj [("foo", { dflt := some (.vstr "bar") })])) (.arr []) =
      .error (.dev "Invalid manifest entry \x7bfoo\x7d: Manifest entries must have a defined type.")
    ∧ errCodeOf (parse (some (.mobj [("foo", { required := true })])) (.arr [])) ≠
        some "E_MISSING_OPT" := by
  refine ⟨?_, ?_, ?_⟩ <;>
    simp [parse, parseLoop, buildMap, checkUnknown, insertIndexKeys, validateManifestM,
      validateManifestM.validateEntries, validateEntry, validateEntryType, errCodeOf,
      applyEntries]

/-- C2 amended: with the mandatory `type` declared, the required/default laws
hold: for every valid single-entry manifest and no captured value, a declared
default is applied, otherwise a declared `required` fails with
`E_MISSING_OPT`, otherwise the key is absent from the result; in particular
`parse({ foo: { type: 'string', required: true } }, [])` throws
`E_MISSING_OPT` and `parse({ foo: { type: 'string', default: 'bar' } }, [])`
returns `{ foo: 'bar' }`. -/
theorem claim2_required_default_laws :
    (∀ (name : String) (opt : OptEntry),
      validateManifestM (.mobj [(name, opt)]) = .ok () →
      parse (some (.mobj [(name, opt)])) (.arr []) =
        match opt.dflt with
        | some d => .ok ⟨[(name, d)], none⟩
        | none =>
          if opt.required then
            .error (.user ("Required option \x7b" ++ renderOptionName name opt ++
              "\x7d not provided") "E_MISSING_OPT")
          else .ok ⟨[], none⟩)
    ∧ parse (some (.mobj [("foo", { type := some "string", required := true })])) (.arr []) =
        .error (.user "Required option \x7bfoo=<undefined\x7d not provided" "E_MISSING_OPT")
    ∧ parse (some (.mobj [("foo", { type := some "string", dflt := some (.vstr "bar") })]))
        (.arr []) = .ok ⟨[("foo", .vstr "bar")], none⟩ := by
  refine ⟨?_, ?_, ?_⟩
  · intro name opt hval
    have hpl : parseLoop (some (.mobj [(name, opt)])) [] = .ok ([], []) := by
      simp [parseLoop]
    rw [parse_mobj_unfold _ _ _ _ hpl]
    simp only [buildMap, List.foldl_nil, checkUnknown, hval, insertIndexKeys,
      applyEntries, lookupVal, assocLookup, List.isEmpty_nil]
    cases hd : opt.dflt with
    | some d => simp [upsert, applyEntries]
    | none =>
      by_cases hr : opt.required = true
      · simp [hr]
      · rw [Bool.not_eq_true] at hr
        simp [hr, applyEntries]
  · simp [parse, parseLoop, buildMap, checkUnknown, insertIndexKeys, validateManifestM,
      validateManifestM.validateEntries, validateEntry, validateEntryType,
      validateEntryDefault, validateEntryAllow, applyEntries, lookupVal, assocLookup,
      renderOptionName]
  · simp [parse, parseLoop, buildMap, checkUnknown, insertIndexKeys, validateManifestM,
      validateManifestM.validateEntries, validateEntry, validateEntryType,
      validateEntryDefault, validateEntryAllow, applyEntries, lookupVal, assocLookup,
      upsert, jsTypeof]

/-- C2 amended, witnessed at the concrete manifest
`{ foo: { type: 'string', required: true } }`. -/
theorem claim2_required_default_laws_witness :
    parse (some (.mobj [("foo", { type := some "string", required := true })])) (.arr []) =
      .error (.user "Required option \x7bfoo=<undefined\x7d not provided" "E_MISSING_OPT") := by
  have h := claim2_required_default_laws.1 "foo" { type := some "string", required := true }
    (by simp [validateManifestM, validateManifestM.validateEntries, validateEntry,
      validateEntryType, validateEntryDefault, validateEntryAllow])
  simpa [renderOptionName] using h

/-- C9: a bare `-` token is classified as a short-option group with zero
flags: it is consumed, adds no key, is not recorded as positional and raises
no error — the rest of the parse proceeds as if it were absent. -/
theorem claim9_single_dash_dropped (m : Option ManifestV) (rest : List String) :
    parseLoop m ("-" :: rest) = parseLoop m rest
    ∧ parse none (.arr ["-", "x"]) = .ok ⟨[("0", .vstr "x")], some ["x"]⟩ := by
  constructor
  · cases rest with
    | nil => simp [parseLoop, parseShortGroup, isLongOpt, isShortOpt, isOpt]
    | cons next rest2 =>
      conv_lhs => rw [parseLoop]
      simp only [show isLongOpt "-" = false from rfl, show isShortOpt "-" = true from rfl,
        Bool.false_eq_true, if_false, if_true]
      have hsg : parseShortGroup m "-" (some next) ("-".data.drop 1) = .ok ([], false) := rfl
      rw [hsg]
      cases hx : parseLoop m (next :: rest2) with
      | error e => simp
      | ok p => simp
  · simp [parse, parseLoop, parseShortGroup, isLongOpt, isOpt, isShortOpt, buildMap, upsert,
      insertIndexKeys, natToStr, natDigitsCore, digitChar]

/-- C1: for a long option without `=` at the front of the queue, the
following token is consumed as the option's value exactly when the queue is
non-empty, the next token does not begin with `-`, and the manifest
(if any) does not declare the option as type `boolean`; otherwise the value
is `true`.  In particular
`parse({ foo: { type: 'boolean' } }, ['--foo','bar'])` yields
`{ foo: true, 0: 'bar' }` with `bar` as a positional. -/
theorem claim1_lookahead_value_boolean_suppression
    (m : Option ManifestV) (name next : String) (rest2 : List String)
    (hname : isValidOptName name = true) :
    (parseLoop m (("--" ++ name) :: next :: rest2) =
      if isOpt next = false ∧ manifestTypeOf m name ≠ some "boolean" then
        (match parseLoop m rest2 with
         | .error e => .error e
         | .ok (es, ps) => .ok ((name, JSVal.vstr next) :: es, ps))
      else
        (match parseLoop m (next :: rest2) with
         | .error e => .error e
         | .ok (es, ps) => .ok ((name, JSVal.vbool true) :: es, ps)))
    ∧ parseLoop m [("--" ++ name)] = .ok ([(name, JSVal.vbool true)], [])
    ∧ parse (some (.mobj [("foo", { type := some "boolean" })])) (.arr ["--foo", "bar"]) =
        .ok ⟨[("foo", .vbool true), ("0", .vstr "bar")], some ["bar"]⟩ := by
  have hne : indexOfChar '=' name.data = none := validOptName_no_eq hname
  have hdata : ("--" ++ name).data = '-' :: '-' :: name.data := rfl
  have hlong : isLongOpt ("--" ++ name) = true := by
    unfold isLongOpt
    rw [hdata]
    rfl
  have heq : indexOfChar '=' ("--" ++ name).data = none := by
    rw [hdata, indexOfChar, if_neg (by decide), indexOfChar, if_neg (by decide), hne]
    rfl
  have hclean : String.mk (("--" ++ name).data.drop 2) = name := by
    rw [hdata]
    exact String.mk_data name
  refine ⟨?_, ?_, ?_⟩
  · conv_lhs => rw [parseLoop]
    rw [hlong, heq]
    simp only [if_true, hclean, hname, Bool.not_true, Bool.false_eq_true, if_false]
    cases ho : isOpt next with
    | false =>
      by_cases h2 : manifestTypeOf m name ≠ some "boolean"
      · simp only [Bool.not_false, Bool.true_and, decide_eq_true h2, if_true]
        rw [if_pos (show _ ∧ _ from ⟨by trivial, h2⟩)]
      · simp only [Bool.not_false, Bool.true_and, decide_eq_false h2, Bool.false_eq_true,
          if_false]
        rw [if_neg (fun hc => h2 hc.2)]
    | true =>
      simp only [Bool.not_true, Bool.false_and, Bool.false_eq_true, if_false]
      rw [if_neg (fun hc => Bool.noConfusion hc.1)]
  · conv_lhs => rw [parseLoop]
    rw [hlong, heq]
    simp only [if_true, hclean, hname, Bool.not_true, Bool.false_eq_true, if_false]
    simp [parseLoop]
  · simp [parse, parseLoop, isLongOpt, isOpt, isShortOpt, indexOfChar, isValidOptName,
      isAlpha, isNameChar, manifestTypeOf, assocLookup, buildMap, upsert, checkUnknown,
      hasOwnPropertyM, insertIndexKeys, validateManifestM,
      validateManifestM.validateEntries, validateEntry, validateEntryType,
      validateEntryDefault, validateEntryAllow, applyEntries, lookupVal, coerceValue,
      coerceChecked, jsTypeof, natToStr, natDigitsCore, digitChar]

/-- C1, witnessed at `name = "foo"`, `next = "bar"` with a boolean manifest
entry: the lookahead is suppressed and `foo` is set to `true`. -/
theorem claim1_lookahead_value_boolean_suppression_witness :
    parseLoop (some (.mobj [("foo", { type := some "boolean" })])) ["--foo", "bar"] =
      .ok ([("foo", JSVal.vbool true)], ["bar"]) := by
  have h := (claim1_lookahead_value_boolean_suppression
    (some (.mobj [("foo", { type := some "boolean" })])) "foo" "bar" [] (by decide)).1
  rw [show ("--" ++ "foo" : String) = "--foo" from rfl] at h
  rw [h]
  rw [if_neg (by simp [manifestTypeOf, assocLookup])]
  simp [parseLoop, isLongOpt, isShortOpt, isOpt]

/-- C6: keys are unique in the Raw Result Map and repeated captures overwrite:
for any sequence of assignment events (from any mix of option forms), the
binding of a key in the built map is the value of the last event for that
key; e.g. `parse(undefined, ['--foo','bar','--foo','baz'])` = `{ foo: 'baz' }`. -/
theorem claim6_overwrite_law :
    (∀ (events : List (String × JSVal)) (k : String),
      lookupVal (buildMap events) k =
        ((events.reverse.find? (fun e => e.1 = k)).map Prod.snd))
    ∧ parse none (.arr ["--foo", "bar", "--foo", "baz"]) =
        .ok ⟨[("foo", .vstr "baz")], none⟩ := by
  constructor
  · intro events k
    unfold buildMap
    rw [foldl_upsert_lookup, lastEventVal_eq_find?_reverse]
    cases hf : events.reverse.find? (fun e => e.1 = k) with
    | none => simp [hf, lookupVal, assocLookup]
    | some a => simp [hf]
  · simp [parse, parseLoop, isLongOpt, isOpt, isShortOpt, indexOfChar, isValidOptName,
      isAlpha, isNameChar, manifestTypeOf, buildMap, upsert, insertIndexKeys]

/-- C7: positional round-trip: the tokens not consumed as option names or
values appear in the result under their zero-based index keys in encounter
order; the ordered list is attached as the reserved `_` exactly when at
least one positional exists (and, being non-enumerable, it lives outside the
enumerable properties in this model); `parse(undefined, [])` = `{}` and
`parse(undefined, ['x','y','z'])` = `{ 0:'x', 1:'y', 2:'z' }` with hidden
`_` equal to `['x','y','z']`. -/
theorem claim7_positional_roundtrip :
    (∀ (args : List String) (events : List (String × JSVal)) (pos : List String)
        (r : ResultObj),
      parseLoop none args = .ok (events, pos) →
      parse none (.arr args) = .ok r →
      (r.underscore = if pos = [] then none else some pos)
      ∧ (∀ i (hi : i < pos.length),
          lookupVal r.props (natToStr i) = some (.vstr (pos.get ⟨i, hi⟩))))
    ∧ parse none (.arr []) = .ok ⟨[], none⟩
    ∧ parse none (.arr ["x", "y", "z"]) =
        .ok ⟨[("0", .vstr "x"), ("1", .vstr "y"), ("2", .vstr "z")], some ["x", "y", "z"]⟩ := by
  refine ⟨?_, ?_, ?_⟩
  · intro args events pos r hpl hp
    rw [parse_none_unfold _ _ _ hpl] at hp
    have hr : r = ⟨insertIndexKeys (buildMap events) pos 0,
        if pos.isEmpty then none else some pos⟩ := by
      cases hp
      rfl
    subst hr
    constructor
    · cases pos with
      | nil => simp
      | cons p ps => simp
    · intro i hi
      have h := insertIndexKeys_lookup_at pos (buildMap events) 0 i hi
      rw [Nat.zero_add] at h
      exact h
  · simp [parse, parseLoop, buildMap, insertIndexKeys]
  · simp [parse, parseLoop, isLongOpt, isOpt, isShortOpt, buildMap, upsert, insertIndexKeys,
      natToStr, natDigitsCore, digitChar]

/-- C7, witnessed at `parse(undefined, ['x'])`: index key `0` holds `'x'`. -/
theorem claim7_positional_roundtrip_witness :
    lookupVal [("0", JSVal.vstr "x")] (natToStr 0) = some (.vstr "x") := by
  have h := (claim7_positional_roundtrip.1 ["x"] [] ["x"]
    ⟨[("0", JSVal.vstr "x")], some ["x"]⟩
    (by simp [parseLoop, isLongOpt, isOpt, isShortOpt])
    (by simp [parse, parseLoop, isLongOpt, isOpt, isShortOpt, buildMap, upsert,
      insertIndexKeys, natToStr, natDigitsCore, digitChar])).2 0 (by decide)
  simpa using h

/-- C4: with a manifest supplied, `parse` throws `E_UNKNOWN_OPT` exactly when
the Raw Result Map holds a named key absent from the manifest; the check runs
before index keys are inserted, so positional arguments (e.g.
`parse({}, ['x','y'])`) never trigger it even with undeclared indices. -/
theorem claim4_unknown_option_law :
    (∀ (entries : List (String × OptEntry)) (args : List String)
        (events : List (String × JSVal)) (pos : List String),
      parseLoop (some (.mobj entries)) args = .ok (events, pos) →
      ((∃ e, parse (some (.mobj entries)) (.arr args) = .error e ∧
          jsErrCode e = some "E_UNKNOWN_OPT") ↔
        ∃ kv ∈ buildMap events, ∀ en ∈ entries, en.1 ≠ kv.1))
    ∧ parse (some (.mobj [])) (.arr ["x", "y"]) =
        .ok ⟨[("0", .vstr "x"), ("1", .vstr "y")], some ["x", "y"]⟩ := by
  constructor
  · intro entries args events pos hpl
    rw [parse_mobj_unfold _ _ _ _ hpl]
    by_cases hall : ∀ kv ∈ buildMap events, ∃ en ∈ entries, en.1 = kv.1
    · have hok := (checkUnknown_ok_iff entries (buildMap events)).2 hall
      rw [hok]
      constructor
      · rintro ⟨e, he, hc⟩
        exfalso
        cases hv : validateManifestM (.mobj entries) with
        | error e2 =>
          simp only [hv] at he
          cases he
          rw [validateManifestM_code _ _ hv] at hc
          cases hc
        | ok u =>
          obtain ⟨⟩ := u
          simp only [hv] at he
          cases ha : applyEntries (insertIndexKeys (buildMap events) pos 0) entries with
          | error e2 =>
            simp only [ha] at he
            cases he
            rcases applyEntries_code _ _ _ ha with hcode | hcode <;>
              rw [hcode] at hc <;> simp at hc
          | ok p2 =>
            simp only [ha] at he
            cases he
      · rintro ⟨kv, hkv, hne⟩
        obtain ⟨en, hen, heq⟩ := hall kv hkv
        exact absurd heq (hne en hen)
    · obtain ⟨msg, herr⟩ := checkUnknown_err entries (buildMap events) hall
      rw [herr]
      push_neg at hall
      constructor
      · intro _
        obtain ⟨kv, hkv, hne⟩ := hall
        exact ⟨kv, hkv, hne⟩
      · intro _
        exact ⟨.user msg "E_UNKNOWN_OPT", rfl, rfl⟩
  · simp [parse, parseLoop, isLongOpt, isOpt, isShortOpt, buildMap, upsert, checkUnknown,
      insertIndexKeys, natToStr, natDigitsCore, digitChar, validateManifestM,
      validateManifestM.validateEntries, applyEntries]

/-- C4, witnessed: `parse({}, ['--foo','v'])` throws `E_UNKNOWN_OPT`. -/
theorem claim4_unknown_option_law_witness :
    ∃ e, parse (some (.mobj [])) (.arr ["--foo", "v"]) = .error e ∧
      jsErrCode e = some "E_UNKNOWN_OPT" := by
  have hpl : parseLoop (some (.mobj ([] : List (String × OptEntry)))) ["--foo", "v"] =
      .ok ([("foo", .vstr "v")], []) := by
    simp [parseLoop, isLongOpt, isOpt, isShortOpt, indexOfChar, isValidOptName, isAlpha,
      isNameChar, manifestTypeOf, assocLookup]
  exact (claim4_unknown_option_law.1 [] ["--foo", "v"] [("foo", .vstr "v")] [] hpl).2
    ⟨("foo", .vstr "v"), by simp [buildMap, upsert], by simp⟩

/-- C5: value coercion and constraints per entry holding a captured raw
value: `int` coerces with `parseInt` (truncating toward zero: `'1.5'` → `1`)
and `float` with `parseFloat`, throwing `E_INVALID_OPT_VALUE` exactly when
the parse yields `NaN`; for `boolean`/`string` a raw value of mismatched
runtime kind throws `E_INVALID_OPT_VALUE`; and after successful coercion a
value outside a declared `allow` list always throws while every member is
accepted.  Grounded by the spec's parse-level examples. -/
theorem claim5_coercion_and_allow :
    (∀ (name : String) (opt : OptEntry) (s : String),
      opt.type = some "int" → opt.allow = none →
      coerceValue name opt (.vstr s) =
        match parseIntStr s with
        | some i => .ok (.vnum (.num (i : ℚ)))
        | none => .error (invalidValueErr s name opt))
    ∧ (∀ (name : String) (opt : OptEntry) (s : String),
      opt.type = some "float" → opt.allow = none →
      coerceValue name opt (.vstr s) =
        match parseFloatStr s with
        | .nan => .error (invalidValueErr s name opt)
        | n => .ok (.vnum n))
    ∧ parseIntStr "1.5" = some 1
    ∧ parseIntStr "-2.7" = some (-2)
    ∧ (∀ (name : String) (opt : OptEntry) (s : String),
      opt.type = some "boolean" →
      coerceValue name opt (.vstr s) = .error (invalidValueErr s name opt))
    ∧ (∀ (name : String) (opt : OptEntry) (b : Bool),
      opt.type = some "string" →
      coerceValue name opt (.vbool b) =
        .error (invalidValueErr (jsToString (JSVal.vbool b)) name opt))
    ∧ (∀ (name : String) (opt : OptEntry) (raw v : JSVal) (l : List JSVal),
      opt.allow = some l →
      coerceChecked name opt raw = .ok v →
      coerceValue name opt raw =
        (if l.any (fun a => svzEq a v) then .ok v
         else .error (invalidValueErr (jsToString v) name opt)))
    ∧ parse (some (.mobj [("foo", { type := some "int" })])) (.arr ["--foo", "1.5"]) =
        .ok ⟨[("foo", .vnum (.num 1))], none⟩
    ∧ errCodeOf (parse (some (.mobj [("foo", { type := some "int" })]))
        (.arr ["--foo", "bar"])) = some "E_INVALID_OPT_VALUE" := by
  refine ⟨?_, ?_, by decide, by decide, ?_, ?_, ?_, ?_, ?_⟩
  · intro name opt s hty hal
    simp only [coerceValue, coerceChecked, hty, hal]
    cases hp : parseIntStr s with
    | some i => simp [jsParseInt, jsToString, hp]
    | none => simp [jsParseInt, jsToString, hp]
  · intro name opt s hty hal
    simp only [coerceValue, coerceChecked, hty, hal]
    cases hp : parseFloatStr s with
    | nan => simp [jsParseFloat, jsToString, hp]
    | num q => simp [jsParseFloat, jsToString, hp]
    | inf b => simp [jsParseFloat, jsToString, hp]
  · intro name opt s hty
    cases ha : opt.allow with
    | none => simp [coerceValue, coerceChecked, hty, ha, jsTypeof, jsToString]
    | some l => simp [coerceValue, coerceChecked, hty, ha, jsTypeof, jsToString]
  · intro name opt b hty
    cases ha : opt.allow with
    | none => simp [coerceValue, coerceChecked, hty, ha, jsTypeof]
    | some l => simp [coerceValue, coerceChecked, hty, ha, jsTypeof]
  · intro name opt raw v l hal hok
    simp only [coerceValue, hok, hal]
    by_cases hmem : l.any (fun a => svzEq a v) = true
    · simp [hmem]
    · rw [Bool.not_eq_true] at hmem
      simp [hmem]
  · simp [parse, parseLoop, isLongOpt, isOpt, indexOfChar, isValidOptName, isAlpha,
      isNameChar, manifestTypeOf, assocLookup, buildMap, upsert, checkUnknown,
      hasOwnPropertyM, insertIndexKeys, validateManifestM,
      validateManifestM.validateEntries, validateEntry, validateEntryType,
      validateEntryDefault, validateEntryAllow, applyEntries, lookupVal, coerceValue,
      coerceChecked, jsTypeof, jsParseInt, jsToString, parseIntStr, isWS, splitSign,
      isDigit, digitsVal]
  · simp [parse, parseLoop, isLongOpt, isOpt, indexOfChar, isValidOptName, isAlpha,
      isNameChar, manifestTypeOf, assocLookup, buildMap, upsert, checkUnknown,
      hasOwnPropertyM, insertIndexKeys, validateManifestM,
      validateManifestM.validateEntries, validateEntry, validateEntryType,
      validateEntryDefault, validateEntryAllow, applyEntries, lookupVal, coerceValue,
      coerceChecked, jsTypeof, jsParseInt, jsToString, parseIntStr, isWS, splitSign,
      isDigit, digitsVal, errCodeOf, invalidValueErr]

/-- C5, witnessed at the int option `foo` with raw value `'7'`. -/
theorem claim5_coercion_and_allow_witness :
    coerceValue "foo" { type := some "int" } (.vstr "7") = .ok (.vnum (.num 7)) := by
  have h := claim5_coercion_and_allow.1 "foo" { type := some "int" } "7" rfl rfl
  have h7 : parseIntStr "7" = some 7 := by decide
  rw [h, h7]
  norm_num

/-- A long option written `--name=value` (valid name) captures everything
after the first `=` verbatim as a string, with no lookahead and no boolean
override. -/
theorem parseLoop_long_eq_form (m : Option ManifestV) (name v : String)
    (rest : List String) (hname : isValidOptName name = true) :
    parseLoop m (("--" ++ name ++ "=" ++ v) :: rest) =
      match parseLoop m rest with
      | .error e => .error e
      | .ok (es, ps) => .ok ((name, JSVal.vstr v) :: es, ps) := by
  have hdata : ("--" ++ name ++ "=" ++ v).data =
      '-' :: '-' :: (name.data ++ '=' :: v.data) := by
    simp [data_append, List.append_assoc]
  have hlong : isLongOpt ("--" ++ name ++ "=" ++ v) = true := by
    unfold isLongOpt
    rw [hdata]
    rfl
  have hidx : indexOfChar '=' ("--" ++ name ++ "=" ++ v).data =
      some (name.data.length + 1 + 1) := by
    rw [hdata, indexOfChar, if_neg (by decide), indexOfChar, if_neg (by decide),
      indexOfChar_append_at (validOptName_chars_ne_eq hname)]
    rfl
  have htake : String.mk ((("--" ++ name ++ "=" ++ v).data.take
      (name.data.length + 1 + 1)).drop 2) = name := by
    rw [hdata]
    rw [show name.data.length + 1 + 1 = (name.data.length + 1) + 1 from rfl]
    rw [List.take_succ_cons, List.take_succ_cons]
    simp [List.take_left]
  have hdrop : String.mk (("--" ++ name ++ "=" ++ v).data.drop
      (name.data.length + 1 + 1 + 1)) = v := by
    rw [hdata]
    rw [show name.data.length + 1 + 1 + 1 = (name.data.length + 1) + 1 + 1 from rfl]
    rw [List.drop_succ_cons, List.drop_succ_cons]
    rw [← List.drop_drop, List.drop_left]
    simp
  rcases rest with _ | ⟨a, rs⟩
  · conv_lhs => rw [parseLoop]
    rw [hlong]
    simp only [if_true, hidx, htake, hdrop, hname, Bool.not_true, Bool.false_eq_true,
      if_false]
  · conv_lhs => rw [parseLoop]
    rw [hlong]
    simp only [if_true, hidx, htake, hdrop, hname, Bool.not_true, Bool.false_eq_true,
      if_false]

/-- C10 counterexample: the claim quantifies over every manifest declaring a
boolean option, but coercion processes manifest entries in order, so an
earlier entry can fail first with a different code: with manifest
`{ a: { type: 'string', required: true }, foo: { type: 'boolean' } }` and
tokens `['--foo=true']`, parse throws `E_MISSING_OPT`, not
`E_INVALID_OPT_VALUE`. -/
theorem claim10_counterexample :
    errCodeOf (parse (some (.mobj [("a", { type := some "string", required := true }),
      ("foo", { type := some "boolean" })])) (.arr ["--foo=true"])) =
      some "E_MISSING_OPT" := by
  simp [parse, parseLoop, isLongOpt, isOpt, indexOfChar, isValidOptName, isAlpha, isNameChar,
    buildMap, upsert, checkUnknown, hasOwnPropertyM, insertIndexKeys, validateManifestM,
    validateManifestM.validateEntries, validateEntry, validateEntryType,
    validateEntryDefault, validateEntryAllow, applyEntries, lookupVal, assocLookup,
    coerceValue, coerceChecked, jsTypeof, errCodeOf, renderOptionName]

/-- C10 amended: when the boolean option is the manifest's only entry (so no
earlier entry can fail first), `--name=v` always throws
`E_INVALID_OPT_VALUE`, for every value string `v` including `'true'` and the
empty string: the `=` form captures a string and boolean coercion accepts
only an actual boolean. -/
theorem claim10_boolean_eq_form_always_invalid (name v : String)
    (hname : isValidOptName name = true) :
    errCodeOf (parse (some (.mobj [(name, { type := some "boolean" })]))
      (.arr ["--" ++ name ++ "=" ++ v])) = some "E_INVALID_OPT_VALUE" := by
  have hpl : parseLoop (some (.mobj [(name, { type := some "boolean" })]))
      ["--" ++ name ++ "=" ++ v] = .ok ([(name, JSVal.vstr v)], []) := by
    rw [parseLoop_long_eq_form _ _ _ _ hname]
    simp [parseLoop]
  rw [parse_mobj_unfold _ _ _ _ hpl]
  have hck : checkUnknown (.mobj [(name, ({ type := some "boolean" } : OptEntry))])
      (buildMap [(name, JSVal.vstr v)]) = .ok () := by
    simp [checkUnknown, hasOwnPropertyM, buildMap, upsert]
  have hval : validateManifestM (.mobj [(name, ({ type := some "boolean" } : OptEntry))]) =
      .ok () := by
    simp [validateManifestM, validateManifestM.validateEntries, validateEntry,
      validateEntryType, validateEntryDefault, validateEntryAllow]
  have happ : applyEntries (insertIndexKeys (buildMap [(name, JSVal.vstr v)]) [] 0)
      [(name, ({ type := some "boolean" } : OptEntry))] =
      .error (invalidValueErr v name { type := some "boolean" }) := by
    simp [insertIndexKeys, buildMap, upsert, applyEntries, lookupVal, assocLookup,
      coerceValue, coerceChecked, jsTypeof, jsToString]
  simp only [hck, hval, happ]
  rfl

/-- C10 amended, witnessed at `--foo=true`. -/
theorem claim10_boolean_eq_form_always_invalid_witness :
    errCodeOf (parse (some (.mobj [("foo", { type := some "boolean" })]))
      (.arr ["--" ++ "foo" ++ "=" ++ "true"])) = some "E_INVALID_OPT_VALUE" :=
  claim10_boolean_eq_form_always_invalid "foo" "true" (by decide)

/-- C8 counterexample: a `null` manifest is not rejected with a
`DeveloperError` — `typeof null === 'object'` lets it past the guard and
`Object.entries(null)` raises a native `TypeError`; and with a primitive
manifest and a named key captured, the unknown-option check fires first
(`hasOwnProperty` on the boxed primitive is `false`), throwing `UserError`
`E_UNKNOWN_OPT` rather than a `DeveloperError`. -/
theorem claim8_counterexample :
    parse (some .mnull) (.arr []) =
      .error (.native "Cannot convert undefined or null to object")
    ∧ errCodeOf (parse (some (.mprim (.vnum (.num 5)))) (.arr ["--foo", "x"])) =
        some "E_UNKNOWN_OPT" := by
  constructor
  · simp [parse, parseLoop, buildMap, checkUnknown, insertIndexKeys, validateManifestM]
  · simp [parse, parseLoop, isLongOpt, isOpt, indexOfChar, isValidOptName, isAlpha,
      isNameChar, manifestTypeOf, buildMap, upsert, checkUnknown, hasOwnPropertyM,
      errCodeOf]

/-- C8 amended: a non-array `tokens` argument always raises `DeveloperError`;
a manifest that is neither an object nor `null` raises `DeveloperError`
provided no named option was captured (otherwise `E_UNKNOWN_OPT` fires
first); a `null` manifest instead raises a native `TypeError`. -/
theorem claim8_caller_misuse :
    (∀ (m : Option ManifestV) (v : JSVal),
      parse m (.nonArray v) =
        .error (.dev "argv.parse() expects \x7bargs\x7d to be an argument array"))
    ∧ (∀ (v : JSVal) (args : List String) (pos : List String),
      parseLoop (some (.mprim v)) args = .ok ([], pos) →
      parse (some (.mprim v)) (.arr args) =
        .error (.dev "argv.parse() expects to be provided an object as its second argument"))
    ∧ (∀ (args : List String) (events : List (String × JSVal)) (pos : List String),
      parseLoop (some .mnull) args = .ok (events, pos) →
      ∃ msg, parse (some .mnull) (.arr args) = .error (.native msg)) := by
  refine ⟨?_, ?_, ?_⟩
  · intro m v
    rfl
  · intro v args pos hpl
    simp [parse, hpl, buildMap, checkUnknown, validateManifestM]
  · intro args events pos hpl
    cases hbm : buildMap events with
    | nil =>
      exact ⟨"Cannot convert undefined or null to object",
        by simp [parse, hpl, hbm, checkUnknown, validateManifestM]⟩
    | cons kv rest =>
      exact ⟨"Cannot read properties of null (reading 'hasOwnProperty')",
        by simp [parse, hpl, hbm, checkUnknown, hasOwnPropertyM]⟩

/-- C8 amended, witnessed at the number manifest `5` with empty tokens. -/
theorem claim8_caller_misuse_witness :
    parse (some (.mprim (.vnum (.num 5)))) (.arr []) =
      .error (.dev "argv.parse() expects to be provided an object as its second argument") :=
  claim8_caller_misuse.2.1 (.vnum (.num 5)) [] [] (by simp [parseLoop])
